import Mathlib

/-!
Shallow embedding of the go-openzl streaming compression wrapper.

The Go sources embedded here:
  * `simple.go` — one-shot `Compress` / `Decompress`;
  * `internal/cgo` (`CCtx.Compress`, `DCtx.Decompress`, `GetDecompressedSize`,
    `CompressBound`, `DCtx.DecompressTypedToBytes`, `BytesToTypedSlice`);
  * the `Compressor` / `Decompressor` context types;
  * `writer.go` (Writer, frame format, `WithFrameSize`) and `reader.go` (Reader).

The native OpenZL engine is an external collaborator reached through cgo; it
is modelled as an abstract `Engine` record of pure functions, and theorems
that depend on engine behaviour take the engine's documented contract as
hypotheses.  Bytes are `Nat`s (values below 256 on any real wire); Go `error`
values are the inductive `GoError`, where distinct Go error values map to
distinct constructors, `fmt.Errorf("...: %w", err)` wrapping maps to
`GoError.wrapped`, and plain `fmt.Errorf`/`errors.New` values map to
`GoError.fmtError` of their message.
-/

namespace OpenZL

/-- Go error values that appear in the embedded code.  `eofErr` is `io.EOF`,
`unexpectedEOF` is `io.ErrUnexpectedEOF`; the six sentinel errors of
`errors.go` get their own constructors; `fmtError` is an `errors.New` /
`fmt.Errorf` value identified by its message; `wrapped` is
`fmt.Errorf("msg: %w", cause)`. -/
inductive GoError where
  | eofErr : GoError
  | unexpectedEOF : GoError
  | emptyInput : GoError
  | bufferTooSmall : GoError
  | corruptedData : GoError
  | invalidParameter : GoError
  | contextClosed : GoError
  | outOfMemory : GoError
  | fmtError : String → GoError
  | wrapped : String → GoError → GoError
deriving DecidableEq, Repr

/-- Abstract model of the native OpenZL engine (external collaborator reached
through cgo): a size bound for compression, single-shot compress and
decompress primitives, the exact-decompressed-size query on a frame header,
and the typed decompression entry point.  `Except String` mirrors the C
calls that can fail with a native diagnostic string. -/
structure Engine where
  compressBound : Nat → Nat
  compress : List Nat → List Nat
  decompressedSize : List Nat → Except String Nat
  decompress : List Nat → Except String (List Nat)
  decompressTyped : List Nat → Except String (List Nat)

/-- Embedding of `cgo.CCtx.Compress(dst, src)` for an open context: `dst` is
summarised by its length; the engine's write into `dst` succeeds when the
compressed output fits, which is the capacity check the C call performs. -/
def cctxCompress (eng : Engine) (dstLen : Nat) (src : List Nat) :
    Except GoError (List Nat) :=
  if src.length = 0 then .error (.fmtError "empty input")
  else if dstLen = 0 then .error (.fmtError "empty destination buffer")
  else
    let out := eng.compress src
    if out.length ≤ dstLen then .ok out
    else .error (.fmtError "openzl: dstCapacityTooSmall")

/-- Embedding of one-shot `Compress` from `simple.go`, which is also the body
of `Compressor.Compress` under the lock with an open context (both allocate
`CompressBound(len(src))` bytes and call `CCtx.Compress`, wrapping failures
as `"compress: %w"`); context creation is assumed to succeed. -/
def goCompress (eng : Engine) (src : List Nat) : Except GoError (List Nat) :=
  if src.length = 0 then .error .emptyInput
  else
    match cctxCompress eng (eng.compressBound src.length) src with
    | .error e => .error (.wrapped "compress" e)
    | .ok out => .ok out

/-- Embedding of `cgo.DCtx.Decompress(dst, src)` for an open context, with
`dst` summarised by its length; the capacity check models the C call's
failure when the decompressed output exceeds the destination. -/
def dctxDecompress (eng : Engine) (dstLen : Nat) (src : List Nat) :
    Except GoError (List Nat) :=
  if src.length = 0 then .error (.fmtError "empty input")
  else if dstLen = 0 then .error (.fmtError "empty destination buffer")
  else
    match eng.decompress src with
    | .error m => .error (.fmtError m)
    | .ok out =>
      if out.length ≤ dstLen then .ok out
      else .error (.fmtError "openzl: dstCapacityTooSmall")

/-- Embedding of one-shot `Decompress` from `simple.go`, which is also the
body of `Decompressor.Decompress` under the lock with an open context: query
`GetDecompressedSize`, allocate exactly that many bytes, decompress; both
wrap failures as `"get decompressed size: %w"` / `"decompress: %w"`. -/
def goDecompress (eng : Engine) (src : List Nat) : Except GoError (List Nat) :=
  if src.length = 0 then .error .emptyInput
  else
    match eng.decompressedSize src with
    | .error m => .error (.wrapped "get decompressed size" (.fmtError m))
    | .ok dstSize =>
      match dctxDecompress eng dstSize src with
      | .error e => .error (.wrapped "decompress" e)
      | .ok out => .ok out

/-- A trivial concrete engine used to evaluate the embedding on concrete
inputs: compression is the identity, the size bound adds slack, the
decompressed size is the frame length. -/
def idEngine : Engine where
  compressBound := fun n => n + 8
  compress := fun l => l
  decompressedSize := fun l => .ok l.length
  decompress := fun l => .ok l
  decompressTyped := fun l => .ok l

/-- C1: for every non-empty byte sequence `b`, `Decompress (Compress b) = b`
(given the engine contract on `b`: the compressed output fits the bound, the
bound and the compressed frame are non-trivial, the size query is exact, and
the engine inverts itself); and on empty input both `Compress` and
`Decompress` return `ErrEmptyInput` rather than succeeding. -/
theorem compress_decompress_roundtrip (eng : Engine) (b : List Nat)
    (hb : b ≠ [])
    (hbound : (eng.compress b).length ≤ eng.compressBound b.length)
    (hpos : 0 < eng.compressBound b.length)
    (hcne : eng.compress b ≠ [])
    (hsz : eng.decompressedSize (eng.compress b) = .ok b.length)
    (hdec : eng.decompress (eng.compress b) = .ok b) :
    (goCompress eng b = .ok (eng.compress b) ∧
      goDecompress eng (eng.compress b) = .ok b) ∧
    goCompress eng [] = .error .emptyInput ∧
    goDecompress eng [] = .error .emptyInput := by
  have hlb : b.length ≠ 0 := fun h => hb (List.eq_nil_of_length_eq_zero h)
  have hlc : (eng.compress b).length ≠ 0 :=
    fun h => hcne (List.eq_nil_of_length_eq_zero h)
  refine ⟨⟨?_, ?_⟩, ?_, ?_⟩
  · simp only [goCompress, cctxCompress, if_neg hlb,
      if_neg (Nat.pos_iff_ne_zero.mp hpos), if_pos hbound]
  · simp only [goDecompress, dctxDecompress, if_neg hlc, hsz, hdec,
      if_neg hlb, le_refl, if_pos]
  · simp [goCompress]
  · simp [goDecompress]

/-- Witness for C1: the round trip evaluated on the concrete bytes of
`"hi"` with the trivial engine. -/
theorem compress_decompress_roundtrip_witness :
    goCompress idEngine [104, 105] = .ok [104, 105] ∧
    goDecompress idEngine [104, 105] = .ok [104, 105] :=
  have h := compress_decompress_roundtrip idEngine [104, 105]
    (by decide) (by decide) (by decide) (by decide) (by rfl) (by rfl)
  ⟨h.1.1, h.1.2⟩

/-- Little-endian 32-bit decode of four wire bytes, the body of
`binary.LittleEndian.Uint32(header[:])` in `Reader.readFrame`. -/
def le32 (a b c d : Nat) : Nat :=
  a + 256 * b + 65536 * c + 16777216 * d

/-- State of a `Reader` (`reader.go`): the remaining bytes of the underlying
reader, the decompressed buffer of the current frame with its read position,
and the `closed` / `eof` / sticky `err` flags.  `bufSize` of the Go struct is
`buf.length` here. -/
structure ReaderState where
  inp : List Nat
  buf : List Nat
  bufPos : Nat
  closed : Bool
  eof : Bool
  err : Option GoError
deriving DecidableEq, Repr

/-- Result signal of `Reader.readFrame`: `eofSig` is a returned `io.EOF`
(logical end of stream), `frameErr` any other returned error, `gotFrame`
success with the buffer refilled. -/
inductive FrameOutcome where
  | eofSig : FrameOutcome
  | frameErr : GoError → FrameOutcome
  | gotFrame : FrameOutcome
deriving DecidableEq, Repr

/-- Embedding of `Reader.readFrame`: read a 4-byte header with `io.ReadFull`
(over a byte-list source, a short read consumes everything left; `io.EOF` and
`io.ErrUnexpectedEOF` from the header read are both mapped to `io.EOF`), a
zero header is the end-of-stream marker, then read exactly `frameSize`
payload bytes (`io.EOF` becomes `io.ErrUnexpectedEOF`, a partial read is
wrapped as `"read frame: %w"`) and decompress them through the owned
`Decompressor` (failures wrapped as `"decompress: %w"`).
`frameHeaderVal` is the decoded header of the first four input bytes. -/
def frameHeaderVal (l : List Nat) : Nat :=
  le32 (l.getD 0 0) (l.getD 1 0) (l.getD 2 0) (l.getD 3 0)

def readFrame (eng : Engine) (s : ReaderState) : ReaderState × FrameOutcome :=
  if s.inp.length = 0 then (s, .eofSig)
  else if s.inp.length < 4 then ({ s with inp := [] }, .eofSig)
  else if frameHeaderVal s.inp = 0 then ({ s with inp := s.inp.drop 4 }, .eofSig)
  else if (s.inp.drop 4).length < frameHeaderVal s.inp then
    if (s.inp.drop 4).length = 0 then ({ s with inp := [] }, .frameErr .unexpectedEOF)
    else ({ s with inp := [] }, .frameErr (.wrapped "read frame" .unexpectedEOF))
  else
    match goDecompress eng ((s.inp.drop 4).take (frameHeaderVal s.inp)) with
    | .error e =>
      ({ s with inp := (s.inp.drop 4).drop (frameHeaderVal s.inp) },
        .frameErr (.wrapped "decompress" e))
    | .ok d2 =>
      ({ s with
          inp := (s.inp.drop 4).drop (frameHeaderVal s.inp)
          buf := d2
          bufPos := 0 }, .gotFrame)

/-- A successful `readFrame` consumes the 4-byte header plus a non-empty
payload, so the remaining input strictly shrinks. -/
theorem readFrame_gotFrame_inp_lt (eng : Engine) (s s' : ReaderState)
    (h : readFrame eng s = (s', .gotFrame)) : s'.inp.length < s.inp.length := by
  unfold readFrame at h
  split at h
  next => simp at h
  next h0 =>
    split at h
    next => simp at h
    next =>
      split at h
      next => simp at h
      next =>
        split at h
        next => split at h <;> simp at h
        next =>
          split at h
          next => simp at h
          next d2 heq =>
            have h1 : s' = { s with
                inp := (s.inp.drop 4).drop (frameHeaderVal s.inp)
                buf := d2
                bufPos := 0 } := by
              have h2 := congrArg Prod.fst h
              simpa using h2.symm
            rw [h1]
            show ((s.inp.drop 4).drop (frameHeaderVal s.inp)).length < s.inp.length
            simp only [List.length_drop]
            omega

/-- The copy loop of `Reader.Read`: while fewer than `pLen` bytes are
accumulated, refill from `readFrame` when the buffer is exhausted (latching
`eof` on the end-of-stream signal and `err` on any other failure, and
deferring the error to the next call when bytes were already copied),
otherwise copy `min(available, wanted)` bytes out of the buffer. -/
def readLoop (eng : Engine) (s : ReaderState) (pLen : Nat) (acc : List Nat) :
    ReaderState × List Nat × Option GoError :=
  if hstop : pLen ≤ acc.length then (s, acc, none)
  else
    if hbe : s.buf.length ≤ s.bufPos then
      match hrf : readFrame eng s with
      | (s', .eofSig) =>
        if acc.length ≠ 0 then ({ s' with eof := true }, acc, none)
        else ({ s' with eof := true }, acc, some .eofErr)
      | (s', .frameErr e) =>
        if acc.length ≠ 0 then ({ s' with err := some e }, acc, none)
        else ({ s' with err := some e }, acc, some e)
      | (s', .gotFrame) => readLoop eng s' pLen acc
    else
      let toCopy := min (s.buf.length - s.bufPos) (pLen - acc.length)
      readLoop eng { s with bufPos := s.bufPos + toCopy } pLen
        (acc ++ (s.buf.drop s.bufPos).take toCopy)
termination_by (pLen - acc.length) + s.inp.length
decreasing_by
  · have := readFrame_gotFrame_inp_lt eng s s' hrf
    omega
  · simp only [List.length_append, List.length_take, List.length_drop]
    omega

/-- Embedding of `Reader.Read`: a closed reader errors, a latched error is
returned as is, a latched `eof` returns `io.EOF`, otherwise the copy loop
runs; the returned list is the data copied into `p` (`n` is its length). -/
def goRead (eng : Engine) (s : ReaderState) (pLen : Nat) :
    ReaderState × List Nat × Option GoError :=
  if s.closed then (s, [], some (.fmtError "read from closed Reader"))
  else
    match s.err with
    | some e => (s, [], some e)
    | none =>
      if s.eof then (s, [], some .eofErr)
      else readLoop eng s pLen []

/-- Embedding of `Reader.Close`: idempotent, always succeeds. -/
def readerClose (s : ReaderState) : ReaderState × Option GoError :=
  if s.closed then (s, none)
  else ({ s with closed := true }, none)

/-- Embedding of `Reader.Reset` (non-nil new source): clears buffer,
position, closed, eof and the sticky error, and rebinds the source. -/
def readerReset (newInp : List Nat) : ReaderState :=
  { inp := newInp, buf := [], bufPos := 0, closed := false, eof := false,
    err := none }

/-- Embedding of `NewReader` (non-nil source, decompressor creation
succeeding): a fresh open reader over the given input bytes. -/
def newReader (inp : List Nat) : ReaderState :=
  { inp := inp, buf := [], bufPos := 0, closed := false, eof := false,
    err := none }

/-- A closed reader refuses `Read`. -/
theorem goRead_closed (eng : Engine) (s : ReaderState) (pLen : Nat)
    (hc : s.closed = true) :
    goRead eng s pLen = (s, [], some (.fmtError "read from closed Reader")) := by
  simp [goRead, hc]

/-- An open reader with a latched error returns that same error from `Read`,
with the state unchanged. -/
theorem goRead_err_sticky (eng : Engine) (s : ReaderState) (pLen : Nat)
    (e : GoError) (hc : s.closed = false) (he : s.err = some e) :
    goRead eng s pLen = (s, [], some e) := by
  simp [goRead, hc, he]

/-- An open reader with the end-of-stream flag latched returns `io.EOF` from
`Read`, with the state unchanged. -/
theorem goRead_eof_sticky (eng : Engine) (s : ReaderState) (pLen : Nat)
    (hc : s.closed = false) (he : s.err = none) (hf : s.eof = true) :
    goRead eng s pLen = (s, [], some .eofErr) := by
  simp [goRead, hc, he, hf]

/-- Reading a frame whose 4-byte header decodes to 0 consumes the header and
signals end of stream. -/
theorem readFrame_zero_header (eng : Engine) (s : ReaderState) (rest : List Nat)
    (hinp : s.inp = 0 :: 0 :: 0 :: 0 :: rest) :
    readFrame eng s = ({ s with inp := rest }, .eofSig) := by
  unfold readFrame
  rw [hinp]
  simp [frameHeaderVal, le32]

/-- C7: once `Read` decodes a zero frame header, the sticky `eof` flag is
set, that call returns `io.EOF` with zero bytes copied, and every subsequent
`Read` on the unchanged state returns `io.EOF` with zero bytes, indefinitely
(the state is a fixed point, so no bytes are ever fabricated after the end
marker). -/
theorem reader_zero_header_sticky_eof (eng : Engine) (s : ReaderState)
    (pLen : Nat) (rest : List Nat)
    (hc : s.closed = false) (he : s.err = none) (hf : s.eof = false)
    (hb : s.buf.length ≤ s.bufPos)
    (hinp : s.inp = 0 :: 0 :: 0 :: 0 :: rest) (hp : 0 < pLen) :
    goRead eng s pLen = ({ s with inp := rest, eof := true }, [], some .eofErr) ∧
    ∀ pLen' : Nat,
      goRead eng { s with inp := rest, eof := true } pLen' =
        ({ s with inp := rest, eof := true }, [], some .eofErr) := by
  constructor
  · simp only [goRead, hc, he, hf]
    rw [readLoop]
    rw [readFrame_zero_header eng s rest hinp]
    have h0 : ¬ (pLen ≤ ([] : List Nat).length) := by simp; omega
    simp [h0, hb, hc, he, Nat.pos_iff_ne_zero.mp hp]
  · intro pLen'
    exact goRead_eof_sticky eng _ pLen' (by simp [hc]) (by simp [he]) rfl

/-- Witness for C7: a stream that is just the end marker, read twice. -/
theorem reader_zero_header_sticky_eof_witness :
    goRead idEngine (newReader [0, 0, 0, 0]) 4 =
      ({ newReader [0, 0, 0, 0] with inp := [], eof := true }, [],
        some .eofErr) ∧
    goRead idEngine { newReader [0, 0, 0, 0] with inp := [], eof := true } 4 =
      ({ newReader [0, 0, 0, 0] with inp := [], eof := true }, [],
        some .eofErr) :=
  have h := reader_zero_header_sticky_eof idEngine (newReader [0, 0, 0, 0]) 4
    [] rfl rfl rfl (by simp [newReader]) rfl (by omega)
  ⟨h.1, h.2 4⟩

/-- State of the reader after consuming the truncated stream
`[1,0,0,0,7,0,0]` of the C2 counterexample: the frame was decoded and
delivered, the cut-down end marker was taken as a clean end of stream. -/
def truncReadState : ReaderState :=
  { inp := [], buf := [7], bufPos := 1, closed := false, eof := true,
    err := none }

/-- Counterexample for C2: the valid one-frame stream
`[1,0,0,0,7] ++ [0,0,0,0]` truncated by the two trailing bytes (so the end
marker is cut to `[0,0]`) is read with full success — the frame's data is
delivered with a nil error and the truncated marker is treated as a clean
end of stream — and every later read returns `io.EOF`; no read ever returns
`ErrCorruptedData` or any other error, contradicting the claim that any
k>0 truncation causes `CorruptedData` on read. -/
theorem reader_truncated_stream_counterexample :
    goRead idEngine (newReader [1, 0, 0, 0, 7, 0, 0]) 8 =
      (truncReadState, [7], none) ∧
    goRead idEngine truncReadState 8 =
      (truncReadState, [], some .eofErr) := by
  constructor
  · simp only [goRead, newReader]
    rw [readLoop]
    simp [readFrame, frameHeaderVal, le32, goDecompress, dctxDecompress,
      idEngine]
    rw [readLoop]
    simp
    rw [readLoop]
    simp [readFrame, truncReadState]
  · simp [goRead, truncReadState]

/-- C2 (amended): a clean end-of-input at the very start of a 4-byte header
read is the logical end of stream; a header truncated to 1–3 bytes is
likewise treated as the logical end of stream (not as a `CorruptedData`
error); a zero header is the end marker; and only a payload shorter than the
header's declared length yields an error — `io.ErrUnexpectedEOF`, possibly
wrapped, never the `ErrCorruptedData` sentinel and never a silent success. -/
theorem readFrame_truncation_behavior (eng : Engine) (s : ReaderState) :
    (s.inp = [] → readFrame eng s = (s, .eofSig)) ∧
    (s.inp ≠ [] → s.inp.length < 4 →
      readFrame eng s = ({ s with inp := [] }, .eofSig)) ∧
    (4 ≤ s.inp.length → frameHeaderVal s.inp = 0 →
      readFrame eng s = ({ s with inp := s.inp.drop 4 }, .eofSig)) ∧
    (4 ≤ s.inp.length → 0 < frameHeaderVal s.inp →
      s.inp.length < 4 + frameHeaderVal s.inp →
      ∃ e, readFrame eng s = ({ s with inp := [] }, .frameErr e) ∧
        e ≠ .eofErr ∧ e ≠ .corruptedData) := by
  refine ⟨?_, ?_, ?_, ?_⟩
  · intro h
    simp [readFrame, h]
  · intro h0 h4
    have h0' : s.inp.length ≠ 0 := by
      intro hz
      exact h0 (List.eq_nil_of_length_eq_zero hz)
    simp [readFrame, h0', h4]
  · intro h4 hz
    have h0' : s.inp.length ≠ 0 := by omega
    have h4' : ¬ s.inp.length < 4 := by omega
    simp [readFrame, h0', h4', hz]
  · intro h4 hpos htr
    have h0' : s.inp.length ≠ 0 := by omega
    have h4' : ¬ s.inp.length < 4 := by omega
    have hz : frameHeaderVal s.inp ≠ 0 := by omega
    have hshort : s.inp.length - 4 < frameHeaderVal s.inp := by omega
    by_cases hre : s.inp.length - 4 = 0
    · exact ⟨.unexpectedEOF, by simp [readFrame, h0', h4', hz, hshort, hre],
        by simp, by simp⟩
    · exact ⟨.wrapped "read frame" .unexpectedEOF,
        by simp [readFrame, h0', h4', hz, hshort, hre], by simp, by simp⟩

/-- Witness for C2 (amended): a 2-byte truncated header is clean end of
stream, and a declared 2-byte payload truncated to 1 byte is a non-EOF,
non-CorruptedData error. -/
theorem readFrame_truncation_behavior_witness :
    readFrame idEngine (newReader [5, 0]) =
      ({ newReader [5, 0] with inp := [] }, .eofSig) ∧
    ∃ e, readFrame idEngine (newReader [2, 0, 0, 0, 9]) =
      ({ newReader [2, 0, 0, 0, 9] with inp := [] }, .frameErr e) ∧
        e ≠ .eofErr ∧ e ≠ .corruptedData :=
  ⟨(readFrame_truncation_behavior idEngine (newReader [5, 0])).2.1
      (by decide) (by decide),
    (readFrame_truncation_behavior idEngine (newReader [2, 0, 0, 0, 9])).2.2.2
      (by decide) (by decide) (by decide)⟩

/-- The `readFrame` helper never touches the `closed`, `eof` or `err` flags;
those are latched only by the `Read` loop itself. -/
theorem readFrame_flags (eng : Engine) (s : ReaderState) :
    (readFrame eng s).1.closed = s.closed ∧ (readFrame eng s).1.eof = s.eof ∧
    (readFrame eng s).1.err = s.err := by
  unfold readFrame
  repeat' split
  all_goals simp

/-- Exit modes of the `Read` copy loop, for an open, error-free, non-eof
reader: the loop never closes the reader, and it ends in one of three ways —
normally (no flag latched, nil error), with an error `e` latched in `err`
(returned now when nothing was accumulated, deferred otherwise), or with
`eof` latched (`io.EOF` now when nothing was accumulated, deferred
otherwise). -/
theorem readLoop_spec (eng : Engine) (s : ReaderState) (pLen : Nat)
    (acc : List Nat) :
    ∀ s' d r, s.closed = false → s.err = none → s.eof = false →
    readLoop eng s pLen acc = (s', d, r) →
    s'.closed = false ∧
    ((s'.err = none ∧ s'.eof = false ∧ r = none) ∨
     (∃ e, s'.err = some e ∧ s'.eof = false ∧
        ((d ≠ [] ∧ r = none) ∨ (d = [] ∧ r = some e))) ∨
     (s'.err = none ∧ s'.eof = true ∧
        ((d ≠ [] ∧ r = none) ∨ (d = [] ∧ r = some .eofErr)))) := by
  induction s, pLen, acc using readLoop.induct eng with
  | case1 s pLen acc h1 =>
    intro s' d r hc he hf hrun
    rw [readLoop, dif_pos h1] at hrun
    simp only [Prod.mk.injEq] at hrun
    obtain ⟨h5, h6, h7⟩ := hrun
    subst h5; subst h6; subst h7
    exact ⟨hc, Or.inl ⟨he, hf, rfl⟩⟩
  | case2 s pLen acc h1 h2 sf hrfc h3 =>
    intro s' d r hc he hf hrun
    rw [readLoop, dif_neg h1, dif_pos h2] at hrun
    rw [hrfc] at hrun
    simp only [if_pos h3, Prod.mk.injEq] at hrun
    obtain ⟨h5, h6, h7⟩ := hrun
    subst h5; subst h6; subst h7
    have hfl := readFrame_flags eng s
    rw [hrfc] at hfl
    have hflc : sf.closed = s.closed := hfl.1
    have hfle : sf.eof = s.eof := hfl.2.1
    have hflr : sf.err = s.err := hfl.2.2
    refine ⟨by rw [hflc, hc], Or.inr (Or.inr ⟨by rw [hflr, he], rfl,
      Or.inl ⟨?_, rfl⟩⟩)⟩
    intro hd
    exact h3 (by simp [hd])
  | case3 s pLen acc h1 h2 sf hrfc h3 =>
    intro s' d r hc he hf hrun
    rw [readLoop, dif_neg h1, dif_pos h2] at hrun
    rw [hrfc] at hrun
    simp only [if_neg h3, Prod.mk.injEq] at hrun
    obtain ⟨h5, h6, h7⟩ := hrun
    subst h5; subst h6; subst h7
    have hfl := readFrame_flags eng s
    rw [hrfc] at hfl
    have hflc : sf.closed = s.closed := hfl.1
    have hfle : sf.eof = s.eof := hfl.2.1
    have hflr : sf.err = s.err := hfl.2.2
    have hacc : acc = [] := by
      by_contra hne
      exact h3 (by simp [hne])
    exact ⟨by rw [hflc, hc], Or.inr (Or.inr ⟨by rw [hflr, he], rfl,
      Or.inr ⟨hacc, rfl⟩⟩)⟩
  | case4 s pLen acc h1 h2 sf e hrfc h3 =>
    intro s' d r hc he hf hrun
    rw [readLoop, dif_neg h1, dif_pos h2] at hrun
    rw [hrfc] at hrun
    simp only [if_pos h3, Prod.mk.injEq] at hrun
    obtain ⟨h5, h6, h7⟩ := hrun
    subst h5; subst h6; subst h7
    have hfl := readFrame_flags eng s
    rw [hrfc] at hfl
    have hflc : sf.closed = s.closed := hfl.1
    have hfle : sf.eof = s.eof := hfl.2.1
    have hflr : sf.err = s.err := hfl.2.2
    refine ⟨by rw [hflc, hc], Or.inr (Or.inl ⟨e, rfl, by rw [hfle, hf],
      Or.inl ⟨?_, rfl⟩⟩)⟩
    intro hd
    exact h3 (by simp [hd])
  | case5 s pLen acc h1 h2 sf e hrfc h3 =>
    intro s' d r hc he hf hrun
    rw [readLoop, dif_neg h1, dif_pos h2] at hrun
    rw [hrfc] at hrun
    simp only [if_neg h3, Prod.mk.injEq] at hrun
    obtain ⟨h5, h6, h7⟩ := hrun
    subst h5; subst h6; subst h7
    have hfl := readFrame_flags eng s
    rw [hrfc] at hfl
    have hflc : sf.closed = s.closed := hfl.1
    have hfle : sf.eof = s.eof := hfl.2.1
    have hflr : sf.err = s.err := hfl.2.2
    have hacc : acc = [] := by
      by_contra hne
      exact h3 (by simp [hne])
    exact ⟨by rw [hflc, hc], Or.inr (Or.inl ⟨e, rfl, by rw [hfle, hf],
      Or.inr ⟨hacc, rfl⟩⟩)⟩
  | case6 s pLen acc h1 h2 sf hrfc ih =>
    intro s' d r hc he hf hrun
    rw [readLoop, dif_neg h1, dif_pos h2] at hrun
    rw [hrfc] at hrun
    have hfl := readFrame_flags eng s
    rw [hrfc] at hfl
    have hflc : sf.closed = s.closed := hfl.1
    have hfle : sf.eof = s.eof := hfl.2.1
    have hflr : sf.err = s.err := hfl.2.2
    exact ih s' d r (by rw [hflc, hc]) (by rw [hflr, he])
      (by rw [hfle, hf]) hrun
  | case7 s pLen acc h1 h2 toCopy ih =>
    intro s' d r hc he hf hrun
    rw [readLoop, dif_neg h1, dif_neg h2] at hrun
    exact ih s' d r hc he hf hrun

/-- C10: for an open, non-errored, non-eof `Reader`, if a `Read` call has
already copied at least one byte when fetching the next frame fails (sticky
`err` set) or hits end-of-stream (sticky `eof` set), the call returns those
bytes with a nil error, and the error — respectively `io.EOF` — is delivered
by the next `Read` call instead. -/
theorem read_partial_data_defers_error (eng : Engine) (s : ReaderState)
    (pLen : Nat) (s' : ReaderState) (d : List Nat) (r : Option GoError)
    (hc : s.closed = false) (he : s.err = none) (hf : s.eof = false)
    (hrun : goRead eng s pLen = (s', d, r)) :
    (∀ e, s'.err = some e → d ≠ [] →
      r = none ∧ ∀ pLen', goRead eng s' pLen' = (s', [], some e)) ∧
    (s'.eof = true → d ≠ [] →
      r = none ∧ ∀ pLen', goRead eng s' pLen' = (s', [], some .eofErr)) := by
  have hrun' : readLoop eng s pLen [] = (s', d, r) := by
    simpa [goRead, hc, he, hf] using hrun
  obtain ⟨hcl, hcase⟩ := readLoop_spec eng s pLen [] s' d r hc he hf hrun'
  constructor
  · intro e herr hd
    rcases hcase with ⟨h1, _, _⟩ | ⟨e', h1, h2, h3⟩ | ⟨h1, _, _⟩
    · simp [h1] at herr
    · have hee : e' = e := Option.some.inj (h1.symm.trans herr)
      rcases h3 with ⟨_, hr⟩ | ⟨hdnil, _⟩
      · exact ⟨hr, fun pLen' => goRead_err_sticky eng s' pLen' e hcl herr⟩
      · exact absurd hdnil hd
    · simp [h1] at herr
  · intro heof hd
    rcases hcase with ⟨_, h2, _⟩ | ⟨e', h1, h2, h3⟩ | ⟨h1, h2, h3⟩
    · simp [heof] at h2
    · simp [heof] at h2
    · rcases h3 with ⟨_, hr⟩ | ⟨hdnil, _⟩
      · exact ⟨hr, fun pLen' => goRead_eof_sticky eng s' pLen' hcl h1 heof⟩
      · exact absurd hdnil hd

/-- State of the reader of the C10 witness after its first `Read`: one frame
delivered, then the next frame's payload turned out truncated, so the error
was latched for the following call. -/
def deferState : ReaderState :=
  { inp := [], buf := [7], bufPos := 1, closed := false, eof := false,
    err := some (.wrapped "read frame" .unexpectedEOF) }

/-- Witness for C10: a good frame followed by a truncated one; the first
`Read` returns the copied byte with a nil error, the second returns the
latched error. -/
theorem read_partial_data_defers_error_witness :
    goRead idEngine (newReader [1, 0, 0, 0, 7, 3, 0, 0, 0, 1]) 8 =
      (deferState, [7], none) ∧
    goRead idEngine deferState 8 =
      (deferState, [], some (.wrapped "read frame" .unexpectedEOF)) := by
  have hrun : goRead idEngine (newReader [1, 0, 0, 0, 7, 3, 0, 0, 0, 1]) 8 =
      (deferState, [7], none) := by
    simp only [goRead, newReader]
    rw [readLoop]
    simp [readFrame, frameHeaderVal, le32, goDecompress, dctxDecompress,
      idEngine]
    rw [readLoop]
    simp
    rw [readLoop]
    simp [readFrame, frameHeaderVal, le32, deferState]
  have h := read_partial_data_defers_error idEngine
    (newReader [1, 0, 0, 0, 7, 3, 0, 0, 0, 1]) 8 deferState [7] none
    rfl rfl rfl hrun
  exact ⟨hrun, (h.1 (.wrapped "read frame" .unexpectedEOF) rfl
    (by simp)).2 8⟩

/-- Model of an `io.Writer` sink: given the bytes delivered so far and the
chunk being written, report `none` to accept the chunk or `some e` to fail
the write (a failing write delivers nothing). -/
def SinkModel : Type := List Nat → List Nat → Option GoError

/-- A sink that accepts every write. -/
def okSink : SinkModel := fun _ _ => none

/-- State of a `Writer` (`writer.go`): bytes delivered to the current sink,
the buffered not-yet-compressed bytes (`bufSize` is `buf.length`, the Go
buffer's capacity is `frameSize`), the configured frame size, the `closed`
flag, the sticky `err`, and whether the owned compressor context is still
live (`comp`). -/
structure WriterState where
  out : List Nat
  buf : List Nat
  frameSize : Nat
  closed : Bool
  err : Option GoError
  comp : Bool
deriving DecidableEq, Repr

/-- `DefaultFrameSize` (64 KiB). -/
def defaultFrameSize : Nat := 64 * 1024

/-- `MinFrameSize` (4 KiB). -/
def minFrameSize : Nat := 4 * 1024

/-- `MaxFrameSize` (1 MiB). -/
def maxFrameSize : Nat := 1024 * 1024

/-- The 4-byte little-endian header `Writer.flush` emits for a payload of
`n` bytes: `byte(n), byte(n>>8), byte(n>>16), byte(n>>24)`. -/
def header4 (n : Nat) : List Nat :=
  [n % 256, n / 256 % 256, n / 65536 % 256, n / 16777216 % 256]

/-- One wire frame: the 4-byte header followed by the payload itself. -/
def frameBytes (pl : List Nat) : List Nat :=
  header4 pl.length ++ pl

/-- Embedding of `Writer.flush`: nothing to do on an empty buffer; otherwise
compress the buffered bytes through the owned `Compressor`, write the 4-byte
header and then the compressed payload to the sink (each failure wrapped
with its own message), and reset the buffer only when both writes landed. -/
def writerFlush (eng : Engine) (sf : SinkModel) (s : WriterState) :
    WriterState × Option GoError :=
  if s.buf.length = 0 then (s, none)
  else
    match goCompress eng s.buf with
    | .error e => (s, some (.wrapped "compress" e))
    | .ok compressed =>
      match sf s.out (header4 compressed.length) with
      | some e => (s, some (.wrapped "write header" e))
      | none =>
        match sf (s.out ++ header4 compressed.length) compressed with
        | some e => ({ s with out := s.out ++ header4 compressed.length },
            some (.wrapped "write compressed" e))
        | none => ({ s with
            out := s.out ++ header4 compressed.length ++ compressed
            buf := [] }, none)

/-- Number of bytes one iteration of the `Writer.Write` loop copies into the
buffer: `min(len(p), frameSize - bufSize)`. -/
def wCopyLen (s : WriterState) (p : List Nat) : Nat :=
  min p.length (s.frameSize - s.buf.length)

/-- The copy loop of `Writer.Write`: copy as much of `p` as fits, flush when
the buffer is exactly full (latching a flush failure into `err` and
returning the byte count so far with the error), and repeat until `p` is
consumed.  The `none` result marks the one situation in which the Go loop
would spin forever (no room and no flush trigger), which is unreachable
from any state with `bufSize < frameSize`. -/
def writeLoop (eng : Engine) (sf : SinkModel) (s : WriterState)
    (p : List Nat) (written : Nat) :
    Option (WriterState × Nat × Option GoError) :=
  if hp : p.length = 0 then some (s, written, none)
  else if hz : wCopyLen s p = 0 then none
  else if (s.buf ++ p.take (wCopyLen s p)).length = s.frameSize then
    match writerFlush eng sf { s with buf := s.buf ++ p.take (wCopyLen s p) } with
    | (s2, some e) =>
      some ({ s2 with err := some e }, written + wCopyLen s p, some e)
    | (s2, none) =>
      writeLoop eng sf s2 (p.drop (wCopyLen s p)) (written + wCopyLen s p)
  else
    writeLoop eng sf { s with buf := s.buf ++ p.take (wCopyLen s p) }
      (p.drop (wCopyLen s p)) (written + wCopyLen s p)
termination_by p.length
decreasing_by
  · simp only [List.length_drop]
    omega
  · simp only [List.length_drop]
    omega

/-- Embedding of `Writer.Write`: a closed writer errors, a latched error is
returned as is, otherwise the copy loop runs. -/
def goWrite (eng : Engine) (sf : SinkModel) (s : WriterState) (p : List Nat) :
    Option (WriterState × Nat × Option GoError) :=
  if s.closed then some (s, 0, some (.fmtError "write to closed Writer"))
  else
    match s.err with
    | some e => some (s, 0, some e)
    | none => writeLoop eng sf s p 0

/-- The end-marker phase of `Writer.Close`: write the zero-length header and
release the compressor; a failing marker write is wrapped as
`"write end marker: %w"` but the compressor is still released. -/
def writeEndMarker (sf : SinkModel) (s : WriterState) :
    WriterState × Option GoError :=
  match sf s.out [0, 0, 0, 0] with
  | some e => ({ s with comp := false }, some (.wrapped "write end marker" e))
  | none => ({ s with out := s.out ++ [0, 0, 0, 0], comp := false }, none)

/-- Embedding of `Writer.Close`: a second call is a no-op success; otherwise
mark closed first, flush a non-empty buffer (a flush failure releases the
compressor and is returned unwrapped and unlatched), then emit the
zero-length end marker and release the compressor. -/
def goWriterClose (eng : Engine) (sf : SinkModel) (s : WriterState) :
    WriterState × Option GoError :=
  if s.closed then (s, none)
  else if s.buf.length ≠ 0 then
    match writerFlush eng sf { s with closed := true } with
    | (s1, some e) => ({ s1 with comp := false }, some e)
    | (s1, none) => writeEndMarker sf s1
  else writeEndMarker sf { s with closed := true }

/-- The rebind phase of `Writer.Reset`: bind to the (fresh, empty) new sink,
clear the buffer position, the sticky error and the closed flag, and
recreate the compressor if the writer was closed or had none; returns the
final content of the old sink next to the new state. -/
def resetRebind (s1 : WriterState) : List Nat × WriterState × Option GoError :=
  (s1.out,
    { out := [], buf := [], frameSize := s1.frameSize, closed := false,
      err := none,
      comp := if s1.closed ∨ s1.comp = false then true else s1.comp },
    none)

/-- Embedding of `Writer.Reset` (non-nil new sink): first flush pending
buffered bytes against the current sink when the writer is open (a flush
failure aborts the reset, unlatched), then rebind. -/
def goWriterReset (eng : Engine) (sf : SinkModel) (s : WriterState) :
    List Nat × WriterState × Option GoError :=
  if s.closed = false ∧ s.buf.length ≠ 0 then
    match writerFlush eng sf s with
    | (s1, some e) => (s1.out, s1, some e)
    | (s1, none) => resetRebind s1
  else resetRebind s

/-- Embedding of `WithFrameSize`: out-of-range sizes are rejected with the
formatted range error, in-range sizes set the frame capacity. -/
def withFrameSize (size : Nat) (s : WriterState) : Except GoError WriterState :=
  if size < minFrameSize ∨ size > maxFrameSize then
    .error (.fmtError "frame size must be between 4096 and 1048576 bytes")
  else .ok { s with frameSize := size }

/-- The writer `NewWriter` builds before options are applied: default frame
size, fresh sink, live compressor. -/
def freshWriter : WriterState :=
  { out := [], buf := [], frameSize := defaultFrameSize, closed := false,
    err := none, comp := true }

/-- Embedding of `NewWriter` (non-nil sink, compressor creation succeeding)
with an optional `WithFrameSize` option: an option error closes the
compressor and returns no writer. -/
def newWriter (sizeOpt : Option Nat) : Except GoError WriterState :=
  match sizeOpt with
  | none => .ok freshWriter
  | some size =>
    match withFrameSize size freshWriter with
    | .error e => .error e
    | .ok w => .ok w

/-- Counterexample for C8: a frame size below 4 KiB is rejected and no
writer is returned, but the rejection error is the formatted range message,
not the `ErrInvalidParameter` sentinel of `errors.go` (which no code path
returns), so `errors.Is(err, ErrInvalidParameter)` would be false. -/
theorem newWriter_rejection_not_invalidParameter :
    newWriter (some 4095) =
      .error (.fmtError "frame size must be between 4096 and 1048576 bytes") ∧
    GoError.fmtError "frame size must be between 4096 and 1048576 bytes" ≠
      GoError.invalidParameter := by
  exact ⟨rfl, by simp⟩

/-- C8 (amended): writer frame capacity is constrained to
`[4096, 1048576]` bytes with default `65536`: every in-range configured size
yields a writer with exactly that capacity, every out-of-range size is
rejected with the formatted range error — not the `ErrInvalidParameter`
sentinel — and no writer is returned; with no option the default applies. -/
theorem withFrameSize_range_behavior (size : Nat) :
    (minFrameSize ≤ size ∧ size ≤ maxFrameSize →
      newWriter (some size) = .ok { freshWriter with frameSize := size }) ∧
    (size < minFrameSize ∨ maxFrameSize < size →
      newWriter (some size) =
        .error (.fmtError "frame size must be between 4096 and 1048576 bytes")) ∧
    newWriter none = .ok freshWriter ∧ freshWriter.frameSize = 65536 := by
  refine ⟨?_, ?_, rfl, rfl⟩
  · intro h
    simp only [minFrameSize, maxFrameSize] at h
    simp only [newWriter, withFrameSize, minFrameSize, maxFrameSize]
    rw [if_neg (by omega)]
  · intro h
    simp only [minFrameSize, maxFrameSize] at h
    simp only [newWriter, withFrameSize, minFrameSize, maxFrameSize]
    rw [if_pos (by omega)]

/-- Witness for C8 (amended): 8 KiB is accepted with that capacity, 4095 is
rejected with the formatted range error. -/
theorem withFrameSize_range_behavior_witness :
    newWriter (some 8192) = .ok { freshWriter with frameSize := 8192 } ∧
    newWriter (some 4095) =
      .error (.fmtError "frame size must be between 4096 and 1048576 bytes") :=
  ⟨(withFrameSize_range_behavior 8192).1 (by decide),
    (withFrameSize_range_behavior 4095).2.1 (by decide)⟩

/-- For non-empty input and a positive, sufficient bound, the context
compress path returns exactly the engine's compressed bytes. -/
theorem goCompress_ok (eng : Engine) (b : List Nat) (hb : b.length ≠ 0)
    (hbound : (eng.compress b).length ≤ eng.compressBound b.length)
    (hpos : eng.compressBound b.length ≠ 0) :
    goCompress eng b = .ok (eng.compress b) := by
  simp only [goCompress, cctxCompress, if_neg hb, if_neg hpos, if_pos hbound]

/-- Under an always-accepting sink, flushing a non-empty buffer appends
exactly one frame — header plus compressed payload — to the sink and empties
the buffer. -/
theorem writerFlush_ok (eng : Engine) (s : WriterState)
    (hb : s.buf.length ≠ 0)
    (hbound : (eng.compress s.buf).length ≤ eng.compressBound s.buf.length)
    (hpos : eng.compressBound s.buf.length ≠ 0) :
    writerFlush eng okSink s =
      ({ s with out := s.out ++ frameBytes (eng.compress s.buf), buf := [] },
        none) := by
  simp only [writerFlush, if_neg hb, goCompress_ok eng s.buf hb hbound hpos,
    okSink, frameBytes, List.append_assoc]

/-- The `Writer.flush` helper touches only `out` and `buf`: the flags,
the frame size and the compressor liveness are untouched, and it never
latches `err` itself. -/
theorem writerFlush_fields (eng : Engine) (sf : SinkModel) (s : WriterState) :
    (writerFlush eng sf s).1.closed = s.closed ∧
    (writerFlush eng sf s).1.err = s.err ∧
    (writerFlush eng sf s).1.frameSize = s.frameSize ∧
    (writerFlush eng sf s).1.comp = s.comp ∧
    (writerFlush eng sf s).1.buf.length ≤ s.buf.length := by
  unfold writerFlush
  repeat' split
  all_goals simp

/-- The `Write` loop can change only `out`, `buf` and `err` of the writer;
moreover it latches any error it returns into `err`, and leaves `err`
untouched on a nil-error return. -/
theorem writeLoop_fields (eng : Engine) (sf : SinkModel) :
    ∀ (s : WriterState) (p : List Nat) (written : Nat) s' n r,
    writeLoop eng sf s p written = some (s', n, r) →
    s'.closed = s.closed ∧ s'.frameSize = s.frameSize ∧ s'.comp = s.comp ∧
    (∀ e, r = some e → s'.err = some e) ∧ (r = none → s'.err = s.err) := by
  intro s p written
  induction s, p, written using writeLoop.induct eng sf with
  | case1 s p written h1 =>
    intro s' n r hrun
    rw [writeLoop, dif_pos h1] at hrun
    simp only [Option.some.injEq, Prod.mk.injEq] at hrun
    obtain ⟨h5, h6, h7⟩ := hrun
    subst h5; subst h7
    exact ⟨rfl, rfl, rfl, fun e he => by simp at he, fun _ => rfl⟩
  | case2 s p written h1 h2 =>
    intro s' n r hrun
    rw [writeLoop, dif_neg h1, dif_pos h2] at hrun
    simp at hrun
  | case3 s p written h1 h2 h3 s2 e hfl =>
    intro s' n r hrun
    rw [writeLoop, dif_neg h1, dif_neg h2, if_pos h3, hfl] at hrun
    simp only [Option.some.injEq, Prod.mk.injEq] at hrun
    obtain ⟨h5, h6, h7⟩ := hrun
    subst h5; subst h7
    have hfd := writerFlush_fields eng sf
      { s with buf := s.buf ++ List.take (wCopyLen s p) p }
    rw [hfl] at hfd
    have hfc : s2.closed = s.closed := hfd.1
    have hff : s2.frameSize = s.frameSize := hfd.2.2.1
    have hfm : s2.comp = s.comp := hfd.2.2.2.1
    exact ⟨hfc, hff, hfm, fun e' he' => by
      simp only [Option.some.injEq] at he'
      simp [← he'], fun hre => by simp at hre⟩
  | case4 s p written h1 h2 h3 s2 hfl ih =>
    intro s' n r hrun
    rw [writeLoop, dif_neg h1, dif_neg h2, if_pos h3, hfl] at hrun
    have hfd := writerFlush_fields eng sf
      { s with buf := s.buf ++ List.take (wCopyLen s p) p }
    rw [hfl] at hfd
    obtain ⟨ha, hb, hcc, hd, he⟩ := ih s' n r hrun
    exact ⟨ha.trans hfd.1, hb.trans hfd.2.2.1, hcc.trans hfd.2.2.2.1, hd,
      fun hre => (he hre).trans hfd.2.1⟩
  | case5 s p written h1 h2 h3 ih =>
    intro s' n r hrun
    rw [writeLoop, dif_neg h1, dif_neg h2, if_neg h3] at hrun
    exact ih s' n r hrun

/-- A sink that fails exactly on the 4-byte zero end marker. -/
def markerFailSink : SinkModel :=
  fun _ chunk => if chunk = [0, 0, 0, 0] then some (.fmtError "disk full") else none

/-- Counterexample for C5: on a fresh writer whose sink rejects the end
marker, `Close` fails — yet the failure is not latched: the very next
`Close` on the same instance returns success, and a next `Write` returns
the unrelated closed-writer error, so not every subsequent operation
returns the same error. -/
theorem writer_close_failure_not_sticky_counterexample :
    goWriterClose idEngine markerFailSink freshWriter =
      ({ freshWriter with closed := true, comp := false },
        some (.wrapped "write end marker" (.fmtError "disk full"))) ∧
    goWriterClose idEngine markerFailSink
        { freshWriter with closed := true, comp := false } =
      ({ freshWriter with closed := true, comp := false }, none) ∧
    goWrite idEngine markerFailSink
        { freshWriter with closed := true, comp := false } [1] =
      some ({ freshWriter with closed := true, comp := false }, 0,
        some (.fmtError "write to closed Writer")) ∧
    GoError.fmtError "write to closed Writer" ≠
      GoError.wrapped "write end marker" (.fmtError "disk full") :=
  ⟨rfl, rfl, rfl, by simp⟩

/-- C5 (amended): failures of `Writer.Write` and `Reader.Read` are latched
into the sticky `err` field and every subsequent `Write`/`Read` on the open
instance returns that same error until `Reset` clears it (`Read`'s only
unlatched failure signal is `io.EOF`, which latches `eof` instead); a
successful `Reset` always leaves the error cleared.  Failures of
`Writer.Close` are not latched: the instance just becomes closed (see the
counterexample). -/
theorem sticky_error_semantics (eng : Engine) (sf : SinkModel) :
    (∀ (s : WriterState) (p : List Nat) e, s.closed = false →
      s.err = some e → goWrite eng sf s p = some (s, 0, some e)) ∧
    (∀ (s : WriterState) (p : List Nat) s' n e, s.closed = false →
      s.err = none → goWrite eng sf s p = some (s', n, some e) →
      s'.err = some e) ∧
    (∀ (s : ReaderState) (pLen : Nat) e, s.closed = false →
      s.err = some e → goRead eng s pLen = (s, [], some e)) ∧
    (∀ (s : ReaderState) (pLen : Nat) s' d e, s.closed = false →
      s.err = none → s.eof = false → goRead eng s pLen = (s', d, some e) →
      (e = .eofErr ∧ s'.eof = true ∧ s'.err = none) ∨ s'.err = some e) ∧
    (∀ (s : WriterState) (old : List Nat) s'' r,
      goWriterReset eng sf s = (old, s'', r) → r = none →
      s''.err = none) ∧
    (∀ inp : List Nat, (readerReset inp).err = none) := by
  refine ⟨?_, ?_, ?_, ?_, ?_, fun _ => rfl⟩
  · intro s p e hc he
    simp [goWrite, hc, he]
  · intro s p s' n e hc he hrun
    simp only [goWrite, hc, he] at hrun
    exact (writeLoop_fields eng sf s p 0 s' n (some e) hrun).2.2.2.1 e rfl
  · intro s pLen e hc he
    exact goRead_err_sticky eng s pLen e hc he
  · intro s pLen s' d e hc he hf hrun
    have hrun' : readLoop eng s pLen [] = (s', d, some e) := by
      simpa [goRead, hc, he, hf] using hrun
    obtain ⟨hcl, hcase⟩ := readLoop_spec eng s pLen [] s' d (some e) hc he hf
      hrun'
    rcases hcase with ⟨_, _, h3⟩ | ⟨e', h1, _, h3⟩ | ⟨h1, h2, h3⟩
    · simp at h3
    · rcases h3 with ⟨_, h4⟩ | ⟨_, h4⟩
      · simp at h4
      · right
        rw [h1]
        simp only [Option.some.injEq] at h4
        rw [h4]
    · rcases h3 with ⟨_, h4⟩ | ⟨_, h4⟩
      · simp at h4
      · left
        simp only [Option.some.injEq] at h4
        exact ⟨h4, h2, h1⟩
  · intro s old s'' r hrun hr
    subst hr
    unfold goWriterReset at hrun
    split at hrun
    · split at hrun
      next s1 e hfl =>
        simp at hrun
      next s1 hfl =>
        unfold resetRebind at hrun
        simp only [Prod.mk.injEq] at hrun
        rw [← hrun.2.1]
    · unfold resetRebind at hrun
      simp only [Prod.mk.injEq] at hrun
      rw [← hrun.2.1]

/-- Witness for C5 (amended): a latched error is returned unchanged by a
`Write` and by a `Read` on concrete errored instances. -/
theorem sticky_error_semantics_witness :
    goWrite idEngine okSink { freshWriter with err := some (.fmtError "boom") }
        [1] =
      some ({ freshWriter with err := some (.fmtError "boom") }, 0,
        some (.fmtError "boom")) ∧
    goRead idEngine { newReader [] with err := some (.fmtError "boom") } 5 =
      ({ newReader [] with err := some (.fmtError "boom") }, [],
        some (.fmtError "boom")) :=
  ⟨(sticky_error_semantics idEngine okSink).1 _ [1] _ rfl rfl,
    (sticky_error_semantics idEngine okSink).2.2.1 _ 5 _ rfl rfl⟩

/-- The rebound writer state `Reset` produces on success: fresh sink, empty
buffer, cleared flags, live compressor, frame size kept. -/
def resetWriter (fs : Nat) : WriterState :=
  { out := [], buf := [], frameSize := fs, closed := false, err := none,
    comp := true }

/-- C9: `Reset` on an open writer with pending buffered bytes first flushes
them as one frame against the current sink, then rebinds to the new (empty)
sink, clearing the buffer, the sticky error and the closed flag, with the
compressor context kept alive; and on a previously `Close`d writer it
flushes nothing and recreates the released compressor context. -/
theorem writer_reset_flush_then_rebind (eng : Engine) (s : WriterState)
    (hc : s.closed = false) (hb : s.buf.length ≠ 0)
    (hbound : (eng.compress s.buf).length ≤ eng.compressBound s.buf.length)
    (hpos : eng.compressBound s.buf.length ≠ 0) :
    goWriterReset eng okSink s =
      (s.out ++ frameBytes (eng.compress s.buf), resetWriter s.frameSize,
        none) ∧
    (∀ s1 : WriterState, s1.closed = true →
      goWriterReset eng okSink s1 =
        (s1.out, resetWriter s1.frameSize, none)) := by
  constructor
  · unfold goWriterReset
    rw [if_pos ⟨hc, hb⟩, writerFlush_ok eng s hb hbound hpos]
    unfold resetRebind resetWriter
    cases hcomp : s.comp <;> simp [hc, hcomp]
  · intro s1 hcl
    unfold goWriterReset
    rw [if_neg (by simp [hcl])]
    unfold resetRebind resetWriter
    simp [hcl]

/-- Witness for C9: a writer holding two pending bytes over the trivial
engine; reset flushes them as the frame `[2,0,0,0,1,2]` to the old sink and
rebinds cleanly; and a closed writer gets a fresh compressor. -/
theorem writer_reset_flush_then_rebind_witness :
    goWriterReset idEngine okSink
        { freshWriter with out := [9], buf := [1, 2] } =
      ([9] ++ frameBytes (idEngine.compress [1, 2]), resetWriter 65536,
        none) ∧
    goWriterReset idEngine okSink
        { freshWriter with closed := true, comp := false } =
      ([], resetWriter 65536, none) :=
  have h := writer_reset_flush_then_rebind idEngine
    { freshWriter with out := [9], buf := [1, 2] } rfl (by decide) (by decide)
    (by decide)
  ⟨h.1, h.2 { freshWriter with closed := true, comp := false } rfl⟩

/-- Under an always-accepting sink and the engine's bound contract, the
`Write` loop consumes all of `p`, reports `len(p)` bytes written with a nil
error, flags untouched, keeps `bufSize < frameSize`, and appends to the sink
exactly a sequence of frames whose payloads are engine outputs of non-empty
buffers. -/
theorem writeLoop_ok (eng : Engine)
    (hbound : ∀ b : List Nat, b ≠ [] →
      (eng.compress b).length ≤ eng.compressBound b.length)
    (hpos : ∀ b : List Nat, b ≠ [] → eng.compressBound b.length ≠ 0) :
    ∀ (s : WriterState) (p : List Nat) (written : Nat),
    s.buf.length < s.frameSize →
    ∃ s', writeLoop eng okSink s p written =
        some (s', written + p.length, none) ∧
      s'.closed = s.closed ∧ s'.err = s.err ∧ s'.frameSize = s.frameSize ∧
      s'.comp = s.comp ∧ s'.buf.length < s'.frameSize ∧
      ∃ pls : List (List Nat),
        (∀ pl ∈ pls, ∃ b : List Nat, b ≠ [] ∧ pl = eng.compress b) ∧
        s'.out = s.out ++ (pls.map frameBytes).flatten := by
  intro s p written
  induction s, p, written using writeLoop.induct eng okSink with
  | case1 s p written h1 =>
    intro hwf
    refine ⟨s, ?_, rfl, rfl, rfl, rfl, hwf, [], by simp, by simp⟩
    rw [writeLoop, dif_pos h1, h1, Nat.add_zero]
  | case2 s p written h1 h2 =>
    intro hwf
    exfalso
    simp only [wCopyLen] at h2
    omega
  | case3 s p written h1 h2 h3 s2 e hfl =>
    intro hwf
    exfalso
    have hbne : (s.buf ++ List.take (wCopyLen s p) p).length ≠ 0 := by
      rw [h3]; omega
    have hbne' : s.buf ++ List.take (wCopyLen s p) p ≠ [] :=
      fun h => hbne (by rw [h]; rfl)
    rw [writerFlush_ok eng { s with buf := s.buf ++ List.take (wCopyLen s p) p }
      hbne (hbound _ hbne') (hpos _ hbne')] at hfl
    simp at hfl
  | case4 s p written h1 h2 h3 s2 hfl ih =>
    intro hwf
    have hbne : (s.buf ++ List.take (wCopyLen s p) p).length ≠ 0 := by
      rw [h3]; omega
    have hbne' : s.buf ++ List.take (wCopyLen s p) p ≠ [] :=
      fun h => hbne (by rw [h]; rfl)
    have hflok := writerFlush_ok eng
      { s with buf := s.buf ++ List.take (wCopyLen s p) p }
      hbne (hbound _ hbne') (hpos _ hbne')
    rw [hflok] at hfl
    have hs2 : s2 = { s with
        out := s.out ++
          frameBytes (eng.compress (s.buf ++ List.take (wCopyLen s p) p))
        buf := [] } := by
      have h4 := congrArg Prod.fst hfl
      simpa using h4.symm
    subst hs2
    have hwf2 : s.frameSize > 0 := Nat.lt_of_le_of_lt (Nat.zero_le _) hwf
    obtain ⟨s', heq, hcl, herr, hfsz, hcmp, hwf', pls, hpls, hout⟩ :=
      ih (by simpa using hwf2)
    refine ⟨s', ?_, by simpa using hcl, by simpa using herr,
      by simpa using hfsz, by simpa using hcmp, hwf',
      eng.compress (s.buf ++ List.take (wCopyLen s p) p) :: pls, ?_, ?_⟩
    · rw [writeLoop, dif_neg h1, dif_neg h2, if_pos h3, hflok]
      have harith : written + wCopyLen s p +
          (List.drop (wCopyLen s p) p).length = written + p.length := by
        simp only [List.length_drop, wCopyLen]
        omega
      rw [harith] at heq
      exact heq
    · intro pl hpl
      rcases List.mem_cons.mp hpl with h | h
      · exact ⟨s.buf ++ List.take (wCopyLen s p) p, hbne', h⟩
      · exact hpls pl h
    · rw [hout]
      simp [List.append_assoc]
  | case5 s p written h1 h2 h3 ih =>
    intro hwf
    have hwf1 : ({ s with buf := s.buf ++ List.take (wCopyLen s p) p }
        : WriterState).buf.length <
        ({ s with buf := s.buf ++ List.take (wCopyLen s p) p }
        : WriterState).frameSize := by
      show (s.buf ++ List.take (wCopyLen s p) p).length < s.frameSize
      have hle : (s.buf ++ List.take (wCopyLen s p) p).length ≤ s.frameSize := by
        simp only [List.length_append, List.length_take, wCopyLen]
        omega
      exact Nat.lt_of_le_of_ne hle h3
    obtain ⟨s', heq, hcl, herr, hfsz, hcmp, hwf', pls, hpls, hout⟩ := ih hwf1
    refine ⟨s', ?_, hcl, herr, hfsz, hcmp, hwf', pls, hpls, hout⟩
    rw [writeLoop, dif_neg h1, dif_neg h2, if_neg h3]
    rw [heq]
    have harith : written + wCopyLen s p +
        (List.drop (wCopyLen s p) p).length = written + p.length := by
      simp only [List.length_drop, wCopyLen]
      omega
    rw [harith]

/-- A whole session of `Write` calls, each on the state the previous one
left behind (`none` marks the unreachable diverging loop). -/
def writeMany (eng : Engine) (sf : SinkModel) :
    WriterState → List (List Nat) → Option WriterState
  | s, [] => some s
  | s, p :: ps =>
    match goWrite eng sf s p with
    | none => none
    | some (s', _, _) => writeMany eng sf s' ps

/-- Under an always-accepting sink, any session of `Write` calls on an open,
error-free writer succeeds and delivers to the sink exactly a concatenation
of frames whose payloads are engine compressions of non-empty buffers. -/
theorem writeMany_ok (eng : Engine)
    (hbound : ∀ b : List Nat, b ≠ [] →
      (eng.compress b).length ≤ eng.compressBound b.length)
    (hpos : ∀ b : List Nat, b ≠ [] → eng.compressBound b.length ≠ 0) :
    ∀ (ps : List (List Nat)) (s : WriterState),
    s.closed = false → s.err = none → s.buf.length < s.frameSize →
    ∃ s1, writeMany eng okSink s ps = some s1 ∧ s1.closed = false ∧
      s1.err = none ∧ s1.frameSize = s.frameSize ∧ s1.comp = s.comp ∧
      s1.buf.length < s1.frameSize ∧
      ∃ pls : List (List Nat),
        (∀ pl ∈ pls, ∃ b : List Nat, b ≠ [] ∧ pl = eng.compress b) ∧
        s1.out = s.out ++ (pls.map frameBytes).flatten := by
  intro ps
  induction ps with
  | nil =>
    intro s hc he hwf
    exact ⟨s, rfl, hc, he, rfl, rfl, hwf, [], by simp, by simp⟩
  | cons p ps ih =>
    intro s hc he hwf
    obtain ⟨s', heq, hcl, herr, hfsz, hcmp, hwf', pls1, hpls1, hout1⟩ :=
      writeLoop_ok eng hbound hpos s p 0 hwf
    obtain ⟨s1, heq1, hc1, he1, hfsz1, hcmp1, hwf1, pls2, hpls2, hout2⟩ :=
      ih s' (hcl.trans hc) (herr.trans he) hwf'
    refine ⟨s1, ?_, hc1, he1, hfsz1.trans hfsz, hcmp1.trans hcmp, hwf1,
      pls1 ++ pls2, ?_, ?_⟩
    · show (match goWrite eng okSink s p with
        | none => none
        | some (s', _, _) => writeMany eng okSink s' ps) = some s1
      rw [show goWrite eng okSink s p = some (s', 0 + p.length, none) by
        simp [goWrite, hc, he, heq]]
      exact heq1
    · intro pl hpl
      rcases List.mem_append.mp hpl with h | h
      · exact hpls1 pl h
      · exact hpls2 pl h
    · rw [hout2, hout1]
      simp [List.append_assoc]

/-- The writer state a successful `Close` leaves behind: final sink content
`fin`, empty buffer, closed flag set, compressor released. -/
def closedOut (s1 : WriterState) (fin : List Nat) : WriterState :=
  { out := fin, buf := [], frameSize := s1.frameSize, closed := true,
    err := s1.err, comp := false }

/-- C4: for every sequence of `Write` calls (possibly none) followed by
`Close` on a writer over an accepting sink (and an engine meeting its bound
contract, producing non-empty payloads below 2^32 bytes), the bytes
delivered to the sink are a sequence of frames — each a 4-byte little-endian
length followed by exactly that many payload bytes — terminated by exactly
one zero-length marker with no payload; a non-empty residual buffer is
flushed as one final payload-bearing frame just before the marker; and a
second `Close` emits nothing and returns success. -/
theorem writer_stream_framing (eng : Engine)
    (hbound : ∀ b : List Nat, b ≠ [] →
      (eng.compress b).length ≤ eng.compressBound b.length)
    (hpos : ∀ b : List Nat, b ≠ [] → eng.compressBound b.length ≠ 0)
    (hne : ∀ b : List Nat, b ≠ [] → eng.compress b ≠ [])
    (hlt : ∀ b : List Nat, b ≠ [] → (eng.compress b).length < 4294967296)
    (fs : Nat) (hfs : 0 < fs) (ps : List (List Nat)) :
    ∃ s1 s2,
      writeMany eng okSink { freshWriter with frameSize := fs } ps = some s1 ∧
      goWriterClose eng okSink s1 = (s2, none) ∧
      s2.out = s1.out ++
        (if s1.buf.length = 0 then []
          else frameBytes (eng.compress s1.buf)) ++ [0, 0, 0, 0] ∧
      (∃ pls : List (List Nat),
        (∀ pl ∈ pls, pl ≠ [] ∧ pl.length < 4294967296) ∧
        s2.out = (pls.map frameBytes).flatten ++ [0, 0, 0, 0]) ∧
      goWriterClose eng okSink s2 = (s2, none) := by
  obtain ⟨s1, heq, hc1, he1, hfsz, hcmp, hwf1, pls1, hpls1, hout1⟩ :=
    writeMany_ok eng hbound hpos ps { freshWriter with frameSize := fs }
      rfl rfl (by simpa using hfs)
  have hplwf : ∀ pl ∈ pls1, pl ≠ [] ∧ pl.length < 4294967296 := by
    intro pl hpl
    obtain ⟨b, hbne, hple⟩ := hpls1 pl hpl
    exact ⟨hple ▸ hne b hbne, hple ▸ hlt b hbne⟩
  have hout1' : s1.out = (pls1.map frameBytes).flatten := by
    rw [hout1]
    rfl
  by_cases hb : s1.buf.length = 0
  · have hbe : s1.buf = [] := List.length_eq_zero.mp hb
    refine ⟨s1, closedOut s1 (s1.out ++ [0, 0, 0, 0]), heq, ?_, ?_,
      ⟨pls1, hplwf, ?_⟩, ?_⟩
    · unfold goWriterClose
      rw [if_neg (by simp [hc1]), if_neg (by simp [hb])]
      unfold writeEndMarker okSink closedOut
      rw [hbe]
    · show s1.out ++ [0, 0, 0, 0] = s1.out ++ _ ++ [0, 0, 0, 0]
      rw [if_pos hb]
      simp
    · show s1.out ++ [0, 0, 0, 0] =
        (pls1.map frameBytes).flatten ++ [0, 0, 0, 0]
      rw [hout1']
    · unfold goWriterClose closedOut
      rw [if_pos rfl]
  · have hbne' : s1.buf ≠ [] := fun h => hb (by rw [h]; rfl)
    have hflok := writerFlush_ok eng { s1 with closed := true }
      (by simpa using hb) (hbound _ hbne') (hpos _ hbne')
    refine ⟨s1, closedOut s1
      (s1.out ++ frameBytes (eng.compress s1.buf) ++ [0, 0, 0, 0]), heq,
      ?_, ?_, ⟨pls1 ++ [eng.compress s1.buf], ?_, ?_⟩, ?_⟩
    · unfold goWriterClose
      rw [if_neg (by simp [hc1]), if_pos (by simpa using hb), hflok]
      unfold writeEndMarker okSink closedOut
      rfl
    · show s1.out ++ frameBytes (eng.compress s1.buf) ++ [0, 0, 0, 0] =
        s1.out ++ _ ++ [0, 0, 0, 0]
      rw [if_neg hb]
    · intro pl hpl
      rcases List.mem_append.mp hpl with h | h
      · exact hplwf pl h
      · rw [List.mem_singleton.mp h]
        exact ⟨hne _ hbne', hlt _ hbne'⟩
    · show s1.out ++ frameBytes (eng.compress s1.buf) ++ [0, 0, 0, 0] = _
      rw [hout1']
      simp [List.append_assoc]
    · unfold goWriterClose closedOut
      rw [if_pos rfl]

/-- A concrete engine whose compressed output is capped at 4096 bytes, so
it satisfies the frame-size side of the engine contract for every input. -/
def capEngine : Engine where
  compressBound := fun n => n + 8
  compress := fun l => l.take 4096
  decompressedSize := fun l => .ok l.length
  decompress := fun l => .ok l
  decompressTyped := fun l => .ok l

/-- Witness for C4: one three-byte write and a close on a 4096-byte-frame
writer over the capped engine. -/
theorem writer_stream_framing_witness :
    ∃ s1 s2,
      writeMany capEngine okSink { freshWriter with frameSize := 4096 }
        [[1, 2, 3]] = some s1 ∧
      goWriterClose capEngine okSink s1 = (s2, none) ∧
      s2.out = s1.out ++
        (if s1.buf.length = 0 then []
          else frameBytes (capEngine.compress s1.buf)) ++ [0, 0, 0, 0] ∧
      (∃ pls : List (List Nat),
        (∀ pl ∈ pls, pl ≠ [] ∧ pl.length < 4294967296) ∧
        s2.out = (pls.map frameBytes).flatten ++ [0, 0, 0, 0]) ∧
      goWriterClose capEngine okSink s2 = (s2, none) :=
  writer_stream_framing capEngine
    (fun b _ => by simp [capEngine])
    (fun b _ => by simp [capEngine])
    (fun b hb => by simp [capEngine, List.take_eq_nil_iff, hb])
    (fun b _ => by simp [capEngine])
    4096 (by omega) [[1, 2, 3]]

/-- Outcome of a Go call that can also panic at runtime (nil-pointer
dereference, index out of range), which is distinct from returning an
`error`. -/
inductive GoResult (α : Type) where
  | ok : α → GoResult α
  | err : GoError → GoResult α
  | panicked : String → GoResult α
deriving DecidableEq, Repr

/-- Embedding of `cgo.DCtx.DecompressTypedToBytes` (open context): empty
input is rejected, the exact decompressed size is queried from the frame
header, and the typed decompression entry point fills a buffer of that size;
when the queried size is 0 the Go code panics on `&dstBytes[0]`. -/
def dctxDecompressTypedToBytes (eng : Engine) (src : List Nat) :
    GoResult (List Nat) :=
  if src.length = 0 then .err (.fmtError "empty input")
  else
    match eng.decompressedSize src with
    | .error m => .err (.wrapped "get decompressed size" (.fmtError m))
    | .ok dstSize =>
      if dstSize = 0 then .panicked "runtime error: index out of range"
      else
        match eng.decompressTyped src with
        | .error m => .err (.fmtError m)
        | .ok out =>
          if out.length ≤ dstSize then .ok out
          else .err (.fmtError "openzl: dstCapacityTooSmall")

/-- The consecutive `w`-byte groups of a byte list, the shape of the
element array that `unsafe.Slice` reinterpretation yields. -/
def chunksOf (w : Nat) (l : List Nat) : List (List Nat) :=
  if l.length = 0 ∨ w = 0 then []
  else l.take w :: chunksOf w (l.drop w)
termination_by l.length
decreasing_by
  simp only [List.length_drop]
  omega

/-- Embedding of `cgo.BytesToTypedSlice[T]` with `w = sizeof(T)`: empty data
yields an empty slice, a length that is not a multiple of `w` yields the
formatted length-inconsistency error, otherwise the bytes are reinterpreted
(bounds-checked in the model as `w`-byte groups, which carry exactly the
same bytes the `unsafe.Slice` view would). -/
def bytesToTypedSlice (w : Nat) (data : List Nat) :
    Except GoError (List (List Nat)) :=
  if data.length = 0 then .ok []
  else if data.length % w ≠ 0 then
    .error (.fmtError ("byte slice length " ++ toString data.length ++
      " is not a multiple of element size " ++ toString w))
  else .ok (chunksOf w data)

/-- Embedding of `DecompressNumeric[T]` from `typed.go` (context creation
succeeding): empty input is rejected, the typed bytes are decompressed and
then converted into the element array, each failure wrapped with its own
message. -/
def decompressNumeric (eng : Engine) (w : Nat) (compressed : List Nat) :
    GoResult (List (List Nat)) :=
  if compressed.length = 0 then .err .emptyInput
  else
    match dctxDecompressTypedToBytes eng compressed with
    | .panicked m => .panicked m
    | .err e => .err (.wrapped "decompress typed" e)
    | .ok bytes =>
      match bytesToTypedSlice w bytes with
      | .error e => .err (.wrapped "convert to typed slice" e)
      | .ok v => .ok v

/-- A list that divides evenly into `w`-byte groups has exactly
`length / w` of them, so the groups carry the same total byte count. -/
theorem chunksOf_length (w : Nat) (hw : w ≠ 0) :
    ∀ l : List Nat, w ∣ l.length → (chunksOf w l).length * w = l.length := by
  intro l
  induction l using chunksOf.induct w with
  | case1 l hstop =>
    intro hdvd
    rcases hstop with h | h
    · rw [chunksOf, if_pos (Or.inl h), h]
      simp
    · exact absurd h hw
  | case2 l hstop ih =>
    intro hdvd
    have hl0 : l.length ≠ 0 := fun h => hstop (Or.inl h)
    have hwle : w ≤ l.length := by
      rcases hdvd with ⟨k, hk⟩
      rcases Nat.eq_zero_or_pos k with hk0 | hk0
      · rw [hk0, Nat.mul_zero] at hk
        exact absurd hk hl0
      · rw [hk]
        exact Nat.le_mul_of_pos_right w hk0
    have hdvd' : w ∣ (l.drop w).length := by
      simp only [List.length_drop]
      exact (Nat.dvd_sub' hdvd dvd_rfl)
    have := ih hdvd'
    rw [chunksOf, if_neg hstop]
    simp only [List.length_cons, Nat.succ_mul]
    simp only [List.length_drop] at this
    omega

/-- C6: `DecompressNumeric[T]` on data whose decompressed byte stream holds
`count` elements of a width `w0 ≠ sizeof T`: when the total byte length is
not a multiple of `sizeof T` the call returns the wrapped
length-inconsistency error, otherwise it succeeds with an element array of
the same total byte length (the "semantically wrong values"); in neither
case does it crash. -/
theorem decompressNumeric_width_mismatch (eng : Engine)
    (w w0 count : Nat) (compressed out : List Nat)
    (hcne : compressed ≠ [])
    (hw : w ≠ 0) (hw0 : w0 ≠ 0) (hcount : count ≠ 0) (hww0 : w ≠ w0)
    (hsz : eng.decompressedSize compressed = .ok (count * w0))
    (hdt : eng.decompressTyped compressed = .ok out)
    (hlen : out.length = count * w0) :
    (count * w0 % w ≠ 0 →
      decompressNumeric eng w compressed =
        .err (.wrapped "convert to typed slice"
          (.fmtError ("byte slice length " ++ toString (count * w0) ++
            " is not a multiple of element size " ++ toString w)))) ∧
    (count * w0 % w = 0 →
      ∃ v, decompressNumeric eng w compressed = .ok v ∧
        v.length * w = count * w0) ∧
    (∀ m, decompressNumeric eng w compressed ≠ .panicked m) := by
  have hlc : compressed.length ≠ 0 :=
    fun h => hcne (List.eq_nil_of_length_eq_zero h)
  have hnz : count * w0 ≠ 0 := by
    intro h
    rcases Nat.mul_eq_zero.mp h with h | h
    · exact hcount h
    · exact hw0 h
  have hbytes : dctxDecompressTypedToBytes eng compressed = .ok out := by
    simp only [dctxDecompressTypedToBytes, if_neg hlc, hsz, if_neg hnz, hdt]
    rw [if_pos (le_of_eq hlen)]
  have hmain : ∀ r, bytesToTypedSlice w out = r →
      decompressNumeric eng w compressed =
        (match r with
          | .error e => .err (.wrapped "convert to typed slice" e)
          | .ok v => .ok v) := by
    intro r hr
    simp only [decompressNumeric, if_neg hlc, hbytes, hr]
  refine ⟨?_, ?_, ?_⟩
  · intro hmod
    have hr : bytesToTypedSlice w out =
        .error (.fmtError ("byte slice length " ++ toString (count * w0) ++
          " is not a multiple of element size " ++ toString w)) := by
      simp only [bytesToTypedSlice, hlen, if_neg hnz]
      rw [if_pos hmod]
    exact hmain _ hr
  · intro hmod
    have hr : bytesToTypedSlice w out = .ok (chunksOf w out) := by
      simp only [bytesToTypedSlice, hlen, if_neg hnz]
      rw [if_neg (by simpa using hmod)]
    refine ⟨chunksOf w out, hmain _ hr, ?_⟩
    rw [chunksOf_length w hw out (by rw [hlen]; exact Nat.dvd_of_mod_eq_zero hmod), hlen]
  · intro m hpan
    rcases hb : bytesToTypedSlice w out with e | v
    · rw [hmain _ hb] at hpan
      simp at hpan
    · rw [hmain _ hb] at hpan
      simp at hpan

/-- A concrete engine whose typed decompression yields three one-byte
elements, for evaluating the width-mismatch behaviour. -/
def typedEngine3 : Engine where
  compressBound := fun n => n + 8
  compress := fun l => l
  decompressedSize := fun _ => .ok 3
  decompress := fun l => .ok l
  decompressTyped := fun _ => .ok [1, 2, 3]

/-- Witness for C6: three bytes of one-byte elements decompressed as a
two-byte element type hit the length-inconsistency error, and never a
crash. -/
theorem decompressNumeric_width_mismatch_witness :
    decompressNumeric typedEngine3 2 [9] =
      .err (.wrapped "convert to typed slice"
        (.fmtError ("byte slice length " ++ toString (3 * 1) ++
          " is not a multiple of element size " ++ toString 2))) ∧
    ∀ m, decompressNumeric typedEngine3 2 [9] ≠ .panicked m :=
  have h := decompressNumeric_width_mismatch typedEngine3 2 1 3 [9] [1, 2, 3]
    (by decide) (by decide) (by decide) (by decide) (by decide)
    (by rfl) (by rfl) (by decide)
  ⟨h.1 (by decide), h.2.2⟩

/-- Embedding of `Compressor.Compress` with the context-liveness made
explicit (`ctxOpen` is `c.ctx != nil`): empty input is rejected, an empty
destination buffer is rejected by `CCtx.Compress`, and then the cgo call
dereferences `c.ctx` — on a context released by `Close` this is a nil
pointer dereference, a runtime panic, because no closed-context check
exists in the Go code. -/
def compressorCompress (eng : Engine) (ctxOpen : Bool) (src : List Nat) :
    GoResult (List Nat) :=
  if src.length = 0 then .err .emptyInput
  else if eng.compressBound src.length = 0 then
    .err (.wrapped "compress" (.fmtError "empty destination buffer"))
  else if ctxOpen = false then
    .panicked "runtime error: invalid memory address or nil pointer dereference"
  else if (eng.compress src).length ≤ eng.compressBound src.length then
    .ok (eng.compress src)
  else .err (.wrapped "compress" (.fmtError "openzl: dstCapacityTooSmall"))

/-- Embedding of `Compressor.Close` / `Decompressor.Close`: always succeeds,
releases the native handle only when it is still live (the `Nat` counts the
`Free` calls actually performed), and leaves the context nil. -/
def compressorClose (ctxOpen : Bool) : Bool × Nat × Option GoError :=
  (false, if ctxOpen then 1 else 0, none)

/-- Embedding of `Decompressor.Decompress` with explicit context liveness:
empty input is rejected, `GetDecompressedSize` (a context-free query) runs
first, an empty destination is rejected by `DCtx.Decompress`, and then the
cgo call dereferences `d.ctx` — a runtime panic once `Close` has set it to
nil, because no closed-context check exists in the Go code. -/
def decompressorDecompress (eng : Engine) (ctxOpen : Bool) (src : List Nat) :
    GoResult (List Nat) :=
  if src.length = 0 then .err .emptyInput
  else
    match eng.decompressedSize src with
    | .error m => .err (.wrapped "get decompressed size" (.fmtError m))
    | .ok dstSize =>
      if dstSize = 0 then
        .err (.wrapped "decompress" (.fmtError "empty destination buffer"))
      else if ctxOpen = false then
        .panicked "runtime error: invalid memory address or nil pointer dereference"
      else
        match eng.decompress src with
        | .error m => .err (.wrapped "decompress" (.fmtError m))
        | .ok out =>
          if out.length ≤ dstSize then .ok out
          else .err (.wrapped "decompress" (.fmtError "openzl: dstCapacityTooSmall"))

/-- C3, evaluated at the failing input: `Close` is indeed idempotent (the
second call succeeds and performs no second release), but an operation
invoked after `Close` — `Compress` or `Decompress` on non-empty input —
panics with a nil pointer dereference instead of returning the declared
`ErrContextClosed` sentinel, which no code path returns. -/
theorem close_idempotent_but_use_after_close_panics :
    compressorClose true = (false, 1, none) ∧
    compressorClose false = (false, 0, none) ∧
    compressorCompress idEngine false [1] =
      .panicked "runtime error: invalid memory address or nil pointer dereference" ∧
    (∀ e, compressorCompress idEngine false [1] ≠ .err e) ∧
    decompressorDecompress idEngine false [7] =
      .panicked "runtime error: invalid memory address or nil pointer dereference" ∧
    (∀ e, decompressorDecompress idEngine false [7] ≠ .err e) := by
  refine ⟨rfl, rfl, rfl, ?_, rfl, ?_⟩
  · intro e h
    rw [show compressorCompress idEngine false [1] =
      .panicked "runtime error: invalid memory address or nil pointer dereference"
      from rfl] at h
    simp at h
  · intro e h
    rw [show decompressorDecompress idEngine false [7] =
      .panicked "runtime error: invalid memory address or nil pointer dereference"
      from rfl] at h
    simp at h

end OpenZL
